import Mathlib

set_option linter.unusedVariables false
set_option linter.unusedTactic false

/-!
Verification of the libra constant-serialization core
(`src/oracle/Libra/SerializeConstant.cpp`).

The development shallowly embeds the serializer: LLVM constants become an
inductive `Constant`, the JSON output becomes an inductive `Json`, the
logging facility becomes a writer layer (recoverable `LOG->error` messages
are accumulated; `LOG->fatal` aborts, modelled with `Except.error`), and the
per-function label maps of `FunctionSerializationContext` become association
lists keyed by entity identity.
-/

namespace libra

/-- A JSON value, the output document tree (`json::Value` / `json::Object`
/ `json::Array` in the source). -/
inductive Json where
  | null
  | num (n : Nat)
  | str (s : String)
  | arr (elems : List Json)
  | obj (fields : List (String × Json))

/-- The serialization effect: `LOG->fatal` aborts the whole serialization
(`Except.error` with the message); `LOG->error` is recoverable and only
accumulates a log message next to the produced value. -/
def SerM (α : Type) : Type := Except String (α × List String)

/-- Return a value with no log output. -/
def serPure {α : Type} (a : α) : SerM α := Except.ok (a, [])

/-- Sequence two serialization steps, concatenating their recoverable logs;
a fatal error in either step aborts. -/
def serBind {α β : Type} (x : SerM α) (f : α → SerM β) : SerM β :=
  match x with
  | Except.error e => Except.error e
  | Except.ok (a, l) =>
    match f a with
    | Except.error e => Except.error e
    | Except.ok (b, l2) => Except.ok (b, l ++ l2)

/-- Map the produced value, keeping logs. -/
def serMap {α β : Type} (f : α → β) (x : SerM α) : SerM β :=
  serBind x (fun a => serPure (f a))

/-- `LOG->fatal`: abort serialization with a message. -/
def serFatal {α : Type} (msg : String) : SerM α := Except.error msg

/-- `LOG->error`: record a recoverable error message and continue. -/
def serLog (msg : String) : SerM Unit := Except.ok ((), [msg])

/-- Maximum representable unsigned 64-bit value (`UINT64_MAX`). -/
def UINT64_MAX : Nat := 2 ^ 64 - 1

/-- Modelled from the spec: the configured soft bit-width threshold for
integer constants ("a configured threshold (default 64)"); the option's
declaration is not part of the serialization source, so the default is
used. -/
def OPT_MAX_BITS_FOR_INT : Nat := 64

/-- `APInt::getLimitedValue(Limit)`: the value if it fits, else `Limit`. -/
def getLimitedValue (v limit : Nat) : Nat := if v > limit then limit else v

/-- A type descriptor. The Type Encoder is an external collaborator; only
its interface matters here, so a type is an opaque descriptor name. -/
inductive Ty where
  | named (s : String)

/-- Modelled from the spec: `serialize_type(value) -> TypeDescriptor`, the
external Type Encoder, specified only at its interface. It is a pure
function of the type. -/
def serialize_type : Ty → Json
  | Ty.named s => Json.obj [("type", Json.str s)]

mutual

/-- An LLVM `Constant`: every constant knows its type (`getType()`) and its
concrete value kind. -/
inductive Constant where
  | mk (ty : Ty) (val : ConstVal)

/-- The concrete kinds of `llvm::Constant` that `serialize_const`
dispatches on, with the data each branch reads. -/
inductive ConstVal where
  | dsoLocalEquivalent
  | noCFIValue
  | constInt (width : Nat) (value : Nat)
  | constFP (rendered : String)
  | constPointerNull
  | constTokenNone
  | constTargetNone
  | undefValue
  | constAggregateZero
  | constDataArray (elems : List Constant)
  | constDataVector (elems : List Constant)
  | blockAddress
  | constArray (ops : List Constant)
  | constStruct (ops : List Constant)
  | constVector (ops : List Constant)
  | globalVariable (name : Option String) (initializer : Option Constant)
  | globalFunction (name : Option String)
  | globalAlias (name : Option String) (aliasee : Option Constant)
  | globalIFunc (name : Option String)
  | constExpr (opcode : String) (ops : List Constant)

end

/-- An operand of an instruction: a constant, or a reference to a basic
block / instruction / argument identity (identities are modelled as
numbers standing for the C++ object addresses). -/
inductive Value where
  | constant (c : Constant)
  | blockRef (b : Nat)
  | instRef (i : Nat)
  | argRef (a : Nat)

/-- An instruction, as the instruction encoder consumes it: an opcode and
an operand list. -/
structure Instruction where
  opcode : String
  operands : List Value

/-- `ConstantExpr::getAsInstruction`: materialize a constant expression as
an instruction of the same opcode over the same operands (inserted into
the synthetic scope in the source; insertion position does not affect the
encoding). -/
def getAsInstruction (opcode : String) (ops : List Constant) : Instruction :=
  { opcode := opcode, operands := ops.map Value.constant }

mutual

/-- Size measure on constants, used for the serializers' termination.
Global references get size 1: serialization never descends into the
referenced definition. -/
def constantSize : Constant → Nat
  | Constant.mk _ v => 1 + constValSize v

/-- Size measure on constant kinds. -/
def constValSize : ConstVal → Nat
  | ConstVal.constDataArray es => 1 + constListSize es
  | ConstVal.constDataVector es => 1 + constListSize es
  | ConstVal.constArray es => 1 + constListSize es
  | ConstVal.constStruct es => 1 + constListSize es
  | ConstVal.constVector es => 1 + constListSize es
  | ConstVal.constExpr _ ops => 1 + ops.length + constListSize ops
  | _ => 1

/-- Size measure on constant lists. -/
def constListSize : List Constant → Nat
  | [] => 0
  | c :: cs => 1 + constantSize c + constListSize cs

end

/-- Size measure on operand values. -/
def valueSize : Value → Nat
  | Value.constant c => 1 + constantSize c
  | _ => 1

/-- Size measure on operand lists. -/
def valueListSize : List Value → Nat
  | [] => 0
  | v :: vs => 1 + valueSize v + valueListSize vs

theorem constantSize_pos (c : Constant) : 0 < constantSize c := by
  cases c with
  | mk t v => simp [constantSize]

theorem valueSize_pos (v : Value) : 0 < valueSize v := by
  cases v <;> simp [valueSize]

theorem valueListSize_map_constant (ops : List Constant) :
    valueListSize (ops.map Value.constant) = ops.length + constListSize ops := by
  induction ops with
  | nil => simp [valueListSize, constListSize]
  | cons c cs ih =>
    simp [valueListSize, valueSize, constListSize, ih]
    omega

/-- A label map of the serialization context: an association list from
entity identity (the C++ object address, modelled as `Nat`) to the
assigned dense label, in insertion order. -/
abbrev LabelMap : Type := List (Nat × Nat)

/-- `std::unordered_map::emplace`: insert unless the key is already
present; reports whether the insertion took place (`res.second`). -/
def labelEmplace (m : LabelMap) (k v : Nat) : LabelMap × Bool :=
  match (List.lookup k m : Option Nat) with
  | some _ => (m, false)
  | none => (m ++ [(k, v)], true)

/-- `std::unordered_map::size`. -/
def labelMapSize (m : LabelMap) : Nat := List.length m

/-- `std::unordered_map::at`: the mapped value, or a fatal lookup error
(`std::out_of_range`) when the identity was never registered. -/
def labelAt (m : LabelMap) (k : Nat) (what : String) : Except String Nat :=
  match (List.lookup k m : Option Nat) with
  | some v => Except.ok v
  | none => Except.error ("fatal lookup error: unregistered " ++ what)

/-- `FunctionSerializationContext`: three independent label maps, keyed by
entity identity, assigning dense zero-based labels. -/
structure FunctionSerializationContext where
  block_labels_ : LabelMap
  inst_labels_ : LabelMap
  arg_labels_ : LabelMap

namespace FunctionSerializationContext

/-- A freshly default-constructed context: all three maps empty. -/
def empty : FunctionSerializationContext :=
  { block_labels_ := [], inst_labels_ := [], arg_labels_ := [] }

/-- `add_block`: assign the next sequential label (the map's current size)
to the block. `assert(res.second)` fails loudly when the identity is
already registered; the map is never silently overwritten. -/
def add_block (c : FunctionSerializationContext) (b : Nat) :
    Except String FunctionSerializationContext :=
  match labelEmplace c.block_labels_ b (labelMapSize c.block_labels_) with
  | (m, true) => Except.ok { c with block_labels_ := m }
  | (_, false) => Except.error "assertion failed: duplicate block identity"

/-- `add_instruction`: as `add_block`, on the instruction map. -/
def add_instruction (c : FunctionSerializationContext) (i : Nat) :
    Except String FunctionSerializationContext :=
  match labelEmplace c.inst_labels_ i (labelMapSize c.inst_labels_) with
  | (m, true) => Except.ok { c with inst_labels_ := m }
  | (_, false) => Except.error "assertion failed: duplicate instruction identity"

/-- `add_argument`: as `add_block`, on the argument map. -/
def add_argument (c : FunctionSerializationContext) (a : Nat) :
    Except String FunctionSerializationContext :=
  match labelEmplace c.arg_labels_ a (labelMapSize c.arg_labels_) with
  | (m, true) => Except.ok { c with arg_labels_ := m }
  | (_, false) => Except.error "assertion failed: duplicate argument identity"

/-- `get_block`: the previously assigned label; fatal if never added. -/
def get_block (c : FunctionSerializationContext) (b : Nat) : Except String Nat :=
  labelAt c.block_labels_ b "block"

/-- `get_instruction`: the previously assigned label; fatal if never added. -/
def get_instruction (c : FunctionSerializationContext) (i : Nat) : Except String Nat :=
  labelAt c.inst_labels_ i "instruction"

/-- `get_argument`: the previously assigned label; fatal if never added. -/
def get_argument (c : FunctionSerializationContext) (a : Nat) : Except String Nat :=
  labelAt c.arg_labels_ a "argument"

end FunctionSerializationContext

/-- `serialize_const_data_int`: log a recoverable error when the bit width
exceeds the configured threshold; abort fatally when the magnitude exceeds
`UINT64_MAX`; otherwise emit `{"value": v}` with the limited value. -/
def serialize_const_data_int (width value : Nat) : SerM Json :=
  serBind
    (if width > OPT_MAX_BITS_FOR_INT
      then serLog ("constant integer width exceeds limit: " ++ toString width)
      else serPure ())
    (fun _ =>
      if value > UINT64_MAX
        then serFatal ("constant integer value exceeds limit: " ++ toString value)
        else serPure (Json.obj [("value", Json.num (getLimitedValue value UINT64_MAX))]))

/-- `serialize_const_data_float`: emit `{"value": <rendered string>}`. -/
def serialize_const_data_float (rendered : String) : Json :=
  Json.obj [("value", Json.str rendered)]

/-- `serialize_const_ref_global`: `{"name": n}` when the referenced global
has a name, the empty object when anonymous; nothing else is read. -/
def serialize_const_ref_global (name : Option String) : Json :=
  match name with
  | some n => Json.obj [("name", Json.str n)]
  | none => Json.obj []

/-- `serialize_const_ref_global_variable`: delegates to the global
reference encoder; the initializer is never read. -/
def serialize_const_ref_global_variable (name : Option String)
    (initializer : Option Constant) : Json :=
  serialize_const_ref_global name

/-- `serialize_const_ref_function`: delegates to the reference encoder. -/
def serialize_const_ref_function (name : Option String) : Json :=
  serialize_const_ref_global name

/-- `serialize_const_ref_global_alias`: delegates to the reference
encoder; the aliasee is never read. -/
def serialize_const_ref_global_alias (name : Option String)
    (aliasee : Option Constant) : Json :=
  serialize_const_ref_global name

/-- `serialize_const_ref_interface`: delegates to the reference encoder. -/
def serialize_const_ref_interface (name : Option String) : Json :=
  serialize_const_ref_global name

mutual

/-- `serialize_constant`: the full record `{"ty": ..., "repr": ...}`. -/
def serialize_constant (c : Constant) : SerM Json :=
  match c with
  | Constant.mk ty v =>
    serMap (fun r => Json.obj [("ty", serialize_type ty), ("repr", r)])
      (serialize_const v)
termination_by 8 * constantSize c
decreasing_by all_goals ((try simp only [constantSize, constValSize, constListSize, valueSize, valueListSize, getAsInstruction, valueListSize_map_constant, List.length_cons, List.length_nil]); omega)

/-- `serialize_const`: the top-level exhaustive classifier over every kind
of constant, producing the tagged representation. -/
def serialize_const (v : ConstVal) : SerM Json :=
  match v with
  | ConstVal.dsoLocalEquivalent => serFatal "serializing a dso_local marker"
  | ConstVal.noCFIValue => serFatal "serializing a no-CFI marker"
  | ConstVal.constInt w n =>
    serMap (fun j => Json.obj [("Int", j)]) (serialize_const_data_int w n)
  | ConstVal.constFP r =>
    serPure (Json.obj [("Float", serialize_const_data_float r)])
  | ConstVal.constPointerNull => serPure (Json.obj [("Null", Json.null)])
  | ConstVal.constTokenNone => serPure (Json.obj [("None", Json.null)])
  | ConstVal.constTargetNone => serPure (Json.obj [("Extension", Json.null)])
  | ConstVal.undefValue => serPure (Json.obj [("Undef", Json.null)])
  | ConstVal.constAggregateZero => serPure (Json.obj [("Default", Json.null)])
  | ConstVal.constDataArray es =>
    serMap (fun j => Json.obj [("Array", j)]) (serialize_const_data_array es)
  | ConstVal.constDataVector es =>
    serMap (fun j => Json.obj [("Vector", j)]) (serialize_const_data_vector es)
  | ConstVal.blockAddress => serPure (Json.obj [("PC", Json.null)])
  | ConstVal.constArray es =>
    serMap (fun j => Json.obj [("Array", j)]) (serialize_const_pack_array es)
  | ConstVal.constStruct es =>
    serMap (fun j => Json.obj [("Struct", j)]) (serialize_const_pack_struct es)
  | ConstVal.constVector es =>
    serMap (fun j => Json.obj [("Vector", j)]) (serialize_const_pack_vector es)
  | ConstVal.globalVariable name initializer =>
    serPure (Json.obj
      [("Variable", serialize_const_ref_global_variable name initializer)])
  | ConstVal.globalFunction name =>
    serPure (Json.obj [("Function", serialize_const_ref_function name)])
  | ConstVal.globalAlias name aliasee =>
    serPure (Json.obj [("Alias", serialize_const_ref_global_alias name aliasee)])
  | ConstVal.globalIFunc name =>
    serPure (Json.obj [("Interface", serialize_const_ref_interface name)])
  | ConstVal.constExpr opcode ops =>
    serMap (fun j => Json.obj [("Expr", j)]) (serialize_const_expr opcode ops)
termination_by 8 * constValSize v + 4
decreasing_by all_goals ((try simp only [constantSize, constValSize, constListSize, valueSize, valueListSize, getAsInstruction, valueListSize_map_constant, List.length_cons, List.length_nil]); omega)

/-- `serialize_const_data_array`: delegates to the sequence encoder. -/
def serialize_const_data_array (es : List Constant) : SerM Json :=
  serialize_const_data_sequence es
termination_by 8 * constListSize es + 11
decreasing_by all_goals ((try simp only [constantSize, constValSize, constListSize, valueSize, valueListSize, getAsInstruction, valueListSize_map_constant, List.length_cons, List.length_nil]); omega)

/-- `serialize_const_data_vector`: delegates to the sequence encoder. -/
def serialize_const_data_vector (es : List Constant) : SerM Json :=
  serialize_const_data_sequence es
termination_by 8 * constListSize es + 11
decreasing_by all_goals ((try simp only [constantSize, constValSize, constListSize, valueSize, valueListSize, getAsInstruction, valueListSize_map_constant, List.length_cons, List.length_nil]); omega)

/-- `serialize_const_data_sequence`: encode every element in stored order
through the classifier and emit `{"elements": [...]}`. -/
def serialize_const_data_sequence (es : List Constant) : SerM Json :=
  serMap (fun els => Json.obj [("elements", Json.arr els)])
    (serialize_const_list es)
termination_by 8 * constListSize es + 10
decreasing_by all_goals ((try simp only [constantSize, constValSize, constListSize, valueSize, valueListSize, getAsInstruction, valueListSize_map_constant, List.length_cons, List.length_nil]); omega)

/-- `serialize_const_pack_array`: delegates to the aggregate encoder. -/
def serialize_const_pack_array (es : List Constant) : SerM Json :=
  serialize_const_pack_aggregate es
termination_by 8 * constListSize es + 11
decreasing_by all_goals ((try simp only [constantSize, constValSize, constListSize, valueSize, valueListSize, getAsInstruction, valueListSize_map_constant, List.length_cons, List.length_nil]); omega)

/-- `serialize_const_pack_struct`: delegates to the aggregate encoder. -/
def serialize_const_pack_struct (es : List Constant) : SerM Json :=
  serialize_const_pack_aggregate es
termination_by 8 * constListSize es + 11
decreasing_by all_goals ((try simp only [constantSize, constValSize, constListSize, valueSize, valueListSize, getAsInstruction, valueListSize_map_constant, List.length_cons, List.length_nil]); omega)

/-- `serialize_const_pack_vector`: delegates to the aggregate encoder. -/
def serialize_const_pack_vector (es : List Constant) : SerM Json :=
  serialize_const_pack_aggregate es
termination_by 8 * constListSize es + 11
decreasing_by all_goals ((try simp only [constantSize, constValSize, constListSize, valueSize, valueListSize, getAsInstruction, valueListSize_map_constant, List.length_cons, List.length_nil]); omega)

/-- `serialize_const_pack_aggregate`: encode every operand in stored order
through the classifier and emit `{"elements": [...]}`. -/
def serialize_const_pack_aggregate (es : List Constant) : SerM Json :=
  serMap (fun els => Json.obj [("elements", Json.arr els)])
    (serialize_const_list es)
termination_by 8 * constListSize es + 10
decreasing_by all_goals ((try simp only [constantSize, constValSize, constListSize, valueSize, valueListSize, getAsInstruction, valueListSize_map_constant, List.length_cons, List.length_nil]); omega)

/-- The element/operand loop shared by the sequence and aggregate
encoders: encode each constant through `serialize_constant`, in order. -/
def serialize_const_list (es : List Constant) : SerM (List Json) :=
  match es with
  | [] => serPure []
  | c :: cs =>
    serBind (serialize_constant c)
      (fun j => serMap (fun js => j :: js) (serialize_const_list cs))
termination_by 8 * constListSize es + 9
decreasing_by all_goals ((try simp only [constantSize, constValSize, constListSize, valueSize, valueListSize, getAsInstruction, valueListSize_map_constant, List.length_cons, List.length_nil]); omega)

/-- `serialize_const_expr`: materialize the expression as an instruction
with `getAsInstruction` and encode it with the general instruction encoder
under a freshly default-constructed (empty) context, wrapping the result
as `{"inst": ...}`. -/
def serialize_const_expr (opcode : String) (ops : List Constant) : SerM Json :=
  serMap (fun encoded => Json.obj [("inst", encoded)])
    (serialize_inst FunctionSerializationContext.empty
      (getAsInstruction opcode ops))
termination_by 8 * ops.length + 8 * constListSize ops + 11
decreasing_by all_goals ((try simp only [constantSize, constValSize, constListSize, valueSize, valueListSize, getAsInstruction, valueListSize_map_constant, List.length_cons, List.length_nil]); omega)

/-- Modelled from the spec: `serialize_inst(instruction, context)`, the
general Instruction Encoder (an external collaborator, absent from the
serialization source). It encodes the opcode and the operands in order;
constant operands recurse through the classifier, and block /
instruction / argument references are looked up in the context's label
maps. -/
def serialize_inst (ctxt : FunctionSerializationContext)
    (inst : Instruction) : SerM Json :=
  serMap (fun ops => Json.obj
      [("opcode", Json.str inst.opcode), ("operands", Json.arr ops)])
    (serialize_operands ctxt inst.operands)
termination_by 8 * valueListSize inst.operands + 6
decreasing_by all_goals ((try simp only [constantSize, constValSize, constListSize, valueSize, valueListSize, getAsInstruction, valueListSize_map_constant, List.length_cons, List.length_nil]); omega)

/-- Modelled from the spec: the instruction encoder's operand loop,
encoding each operand in order. -/
def serialize_operands (ctxt : FunctionSerializationContext)
    (vs : List Value) : SerM (List Json) :=
  match vs with
  | [] => serPure []
  | v :: rest =>
    serBind (serialize_operand ctxt v)
      (fun j => serMap (fun js => j :: js) (serialize_operands ctxt rest))
termination_by 8 * valueListSize vs + 5
decreasing_by all_goals ((try simp only [constantSize, constValSize, constListSize, valueSize, valueListSize, getAsInstruction, valueListSize_map_constant, List.length_cons, List.length_nil]); omega)

/-- Modelled from the spec: one operand of an instruction. A constant
operand recurses through the classifier; a block / instruction / argument
reference is encoded as its dense label from the context, and an
unregistered identity takes the fatal lookup path. -/
def serialize_operand (ctxt : FunctionSerializationContext)
    (v : Value) : SerM Json :=
  match v with
  | Value.constant c => serialize_constant c
  | Value.blockRef b =>
    match ctxt.get_block b with
    | Except.ok n => serPure (Json.num n)
    | Except.error e => serFatal e
  | Value.instRef i =>
    match ctxt.get_instruction i with
    | Except.ok n => serPure (Json.num n)
    | Except.error e => serFatal e
  | Value.argRef a =>
    match ctxt.get_argument a with
    | Except.ok n => serPure (Json.num n)
    | Except.error e => serFatal e
termination_by 8 * valueSize v + 2
decreasing_by all_goals ((try simp only [constantSize, constValSize, constListSize, valueSize, valueListSize, getAsInstruction, valueListSize_map_constant, List.length_cons, List.length_nil]); omega)

end

/-- An LLVM function as the module owns it: only what
`prepare_for_serialization` touches is modelled (name, linkage). -/
structure IRFunction where
  name : String
  internalLinkage : Bool
deriving DecidableEq

/-- An LLVM `Module`: a name and the list of functions it owns, in
creation order. -/
structure IRModule where
  name : String
  functions : List IRFunction
deriving DecidableEq

/-- The synthetic scope: the throwaway function, the throwaway block
inside it, and the throwaway instruction inside that block. -/
structure SyntheticScope where
  dummy_function : IRFunction
  dummy_block_name : String
  dummy_instruction_opcode : String

/-- The function created by `prepare_for_serialization`: unnamed, internal
linkage, void signature. -/
def the_dummy_function : IRFunction :=
  { name := "", internalLinkage := true }

/-- `prepare_for_serialization`: build the synthetic scope.
`Function::Create(..., &module)` constructs the throwaway function with
the module as parent, which appends it to the module's function list;
the throwaway block and `unreachable` instruction live inside it. -/
def prepare_for_serialization (module : IRModule) : IRModule × SyntheticScope :=
  ({ module with functions := module.functions ++ [the_dummy_function] },
   { dummy_function := the_dummy_function,
     dummy_block_name := "",
     dummy_instruction_opcode := "unreachable" })

/-- Register a sequence of blocks, one `add_block` call per element. -/
def add_blocks (c : FunctionSerializationContext) (bs : List Nat) :
    Except String FunctionSerializationContext :=
  match bs with
  | [] => Except.ok c
  | b :: rest =>
    match c.add_block b with
    | Except.ok c2 => add_blocks c2 rest
    | Except.error e => Except.error e

/-- Register a sequence of instructions, one call per element. -/
def add_instructions (c : FunctionSerializationContext) (is : List Nat) :
    Except String FunctionSerializationContext :=
  match is with
  | [] => Except.ok c
  | i :: rest =>
    match c.add_instruction i with
    | Except.ok c2 => add_instructions c2 rest
    | Except.error e => Except.error e

/-- Register a sequence of arguments, one call per element. -/
def add_arguments (c : FunctionSerializationContext) (as_ : List Nat) :
    Except String FunctionSerializationContext :=
  match as_ with
  | [] => Except.ok c
  | a :: rest =>
    match c.add_argument a with
    | Except.ok c2 => add_arguments c2 rest
    | Except.error e => Except.error e

/-- Encode the same constant twice in one session, in sequence, and
return both results. -/
def serialize_constant_twice (c : Constant) : SerM (Json × Json) :=
  serBind (serialize_constant c)
    (fun a => serMap (fun b => (a, b)) (serialize_constant c))

/-- Whether an operand is a block / instruction / argument reference
rather than a constant. -/
def Value.isRef : Value → Bool
  | Value.constant _ => false
  | Value.blockRef _ => true
  | Value.instRef _ => true
  | Value.argRef _ => true

theorem serMap_ok {α β : Type} (f : α → β) (a : α) (l : List String) :
    serMap f (Except.ok (a, l)) = Except.ok (f a, l) := by
  simp [serMap, serBind, serPure]

theorem serMap_error {α β : Type} (f : α → β) (e : String) :
    serMap f (Except.error e : SerM α) = Except.error e := rfl

theorem serMap_comp {α β γ : Type} (f : β → γ) (g : α → β) (x : SerM α) :
    serMap f (serMap g x) = serMap (fun a => f (g a)) x := by
  match x with
  | Except.error e => rfl
  | Except.ok (a, l) => simp [serMap_ok]

theorem serBind_error {α β : Type} (f : α → SerM β) (e : String) :
    serBind (Except.error e : SerM α) f = Except.error e := rfl

theorem lookup_append_of_none {m1 m2 : LabelMap} {k : Nat}
    (h : List.lookup k m1 = none) :
    List.lookup k (m1 ++ m2) = List.lookup k m2 := by
  induction m1 with
  | nil => simp
  | cons p rest ih =>
    obtain ⟨k1, v1⟩ := p
    by_cases hk : k = k1
    · have hb : (k == k1) = true := by simp [hk]
      simp only [List.lookup, hb] at h
      exact absurd h (by simp)
    · have hb : (k == k1) = false := by simp [hk]
      simp only [List.cons_append, List.lookup, hb] at h ⊢
      exact ih h

theorem lookup_append_of_some {m1 m2 : LabelMap} {k v : Nat}
    (h : List.lookup k m1 = some v) :
    List.lookup k (m1 ++ m2) = some v := by
  induction m1 with
  | nil => simp at h
  | cons p rest ih =>
    obtain ⟨k1, v1⟩ := p
    by_cases hk : k = k1
    · have hb : (k == k1) = true := by simp [hk]
      simp only [List.cons_append, List.lookup, hb] at h ⊢
      exact h
    · have hb : (k == k1) = false := by simp [hk]
      simp only [List.cons_append, List.lookup, hb] at h ⊢
      exact ih h

theorem serialize_const_list_sound :
    ∀ (ops : List Constant) (es : List Json) (l : List String),
      serialize_const_list ops = Except.ok (es, l) →
      es.length = ops.length ∧
      ∀ (i : Nat) (hi : i < ops.length) (hj : i < es.length),
        ∃ li, serialize_constant (ops.get ⟨i, hi⟩) =
          Except.ok (es.get ⟨i, hj⟩, li) := by
  intro ops
  induction ops with
  | nil =>
    intro es l h
    simp only [serialize_const_list, serPure] at h
    injection h with hpair
    injection hpair with h1 h2
    subst h1
    refine ⟨rfl, ?_⟩
    intro i hi
    exact absurd hi (by simp)
  | cons c cs ih =>
    intro es l h
    rw [serialize_const_list] at h
    cases hc : serialize_constant c with
    | error e => rw [hc, serBind_error] at h; exact absurd h (by simp)
    | ok al =>
      obtain ⟨j, l1⟩ := al
      cases hr : serialize_const_list cs with
      | error e =>
        rw [hc] at h
        simp [serBind, hr, serMap, serPure] at h
      | ok bl =>
        obtain ⟨js, l2⟩ := bl
        rw [hc] at h
        simp only [serBind, serMap, serPure, hr] at h
        injection h with hpair
        injection hpair with h1 h2
        subst h1
        subst h2
        obtain ⟨hlen, hpt⟩ := ih js l2 hr
        refine ⟨by simp [hlen], ?_⟩
        intro i hi hj
        match i with
        | 0 => exact ⟨l1, by simpa using hc⟩
        | Nat.succ n =>
          have hn : n < cs.length := by simpa using hi
          have hm : n < js.length := by simpa using hj
          obtain ⟨li, hli⟩ := hpt n hn hm
          exact ⟨li, by simpa using hli⟩

theorem serialize_operands_map_constant (ctxt ctxt' : FunctionSerializationContext)
    (ops : List Constant) :
    serialize_operands ctxt (ops.map Value.constant) =
      serialize_operands ctxt' (ops.map Value.constant) := by
  induction ops with
  | nil => simp only [List.map_nil, serialize_operands]
  | cons c cs ih =>
    simp only [List.map_cons, serialize_operands, serialize_operand]
    rw [ih]

theorem serialize_inst_ctxt_irrelevant (ctxt ctxt' : FunctionSerializationContext)
    (opcode : String) (ops : List Constant) :
    serialize_inst ctxt (getAsInstruction opcode ops) =
      serialize_inst ctxt' (getAsInstruction opcode ops) := by
  simp only [serialize_inst, getAsInstruction]
  rw [serialize_operands_map_constant ctxt ctxt']

theorem serialize_const_constExpr_eq (opcode : String) (ops : List Constant) :
    serialize_const (ConstVal.constExpr opcode ops) =
      serMap (fun e => Json.obj [("Expr", Json.obj [("inst", e)])])
        (serialize_inst FunctionSerializationContext.empty
          (getAsInstruction opcode ops)) := by
  simp only [serialize_const, serialize_const_expr, serMap_comp]

theorem serialize_operands_ref_fatal :
    ∀ vs : List Value, (∃ v ∈ vs, Value.isRef v = true) →
      ∃ e, serialize_operands FunctionSerializationContext.empty vs =
        Except.error e := by
  intro vs
  induction vs with
  | nil =>
    rintro ⟨v, hv, _⟩
    exact absurd hv (by simp)
  | cons v rest ih =>
    rintro ⟨w, hw, href⟩
    rw [serialize_operands]
    cases v with
    | constant c =>
      have hwrest : w ∈ rest := by
        rcases List.mem_cons.mp hw with h1 | h1
        · subst h1
          exact absurd href (by simp [Value.isRef])
        · exact h1
      obtain ⟨e, he⟩ := ih ⟨w, hwrest, href⟩
      rw [serialize_operand]
      cases hc : serialize_constant c with
      | error e2 => exact ⟨e2, rfl⟩
      | ok al =>
        obtain ⟨j, l1⟩ := al
        refine ⟨e, ?_⟩
        simp [serBind, serMap, he]
    | blockRef b =>
      refine ⟨"fatal lookup error: unregistered block", ?_⟩
      rw [serialize_operand]
      simp [FunctionSerializationContext.get_block,
        FunctionSerializationContext.empty, labelAt, serFatal, serBind]
    | instRef i =>
      refine ⟨"fatal lookup error: unregistered instruction", ?_⟩
      rw [serialize_operand]
      simp [FunctionSerializationContext.get_instruction,
        FunctionSerializationContext.empty, labelAt, serFatal, serBind]
    | argRef a =>
      refine ⟨"fatal lookup error: unregistered argument", ?_⟩
      rw [serialize_operand]
      simp [FunctionSerializationContext.get_argument,
        FunctionSerializationContext.empty, labelAt, serFatal, serBind]

theorem serialize_inst_ref_fatal (opc : String) (vs : List Value)
    (h : ∃ v ∈ vs, Value.isRef v = true) :
    ∃ e, serialize_inst FunctionSerializationContext.empty
      { opcode := opc, operands := vs } = Except.error e := by
  obtain ⟨e, he⟩ := serialize_operands_ref_fatal vs h
  refine ⟨e, ?_⟩
  rw [serialize_inst]
  simp only [he, serMap_error]

theorem lookup_append_single_ne {m : LabelMap} {k b n : Nat} (hne : k ≠ b) :
    List.lookup k (m ++ [(b, n)]) = List.lookup k m := by
  cases hl : List.lookup k m with
  | some v => exact lookup_append_of_some hl
  | none =>
    rw [lookup_append_of_none hl]
    have hb : (k == b) = false := by simp [hne]
    simp [List.lookup, hb]

theorem add_blocks_sound :
    ∀ (bs : List Nat) (c c' : FunctionSerializationContext),
      bs.Nodup →
      (∀ b ∈ bs, List.lookup b c.block_labels_ = none) →
      add_blocks c bs = Except.ok c' →
      (∀ (i : Nat) (hi : i < bs.length),
        List.lookup (bs.get ⟨i, hi⟩) c'.block_labels_ =
          some (c.block_labels_.length + i)) ∧
      (∀ b, b ∉ bs →
        List.lookup b c'.block_labels_ = List.lookup b c.block_labels_) ∧
      c'.inst_labels_ = c.inst_labels_ ∧ c'.arg_labels_ = c.arg_labels_ := by
  intro bs
  induction bs with
  | nil =>
    intro c c' _ _ h
    simp only [add_blocks] at h
    injection h with h1
    subst h1
    exact ⟨fun i hi => absurd hi (by simp), fun b _ => rfl, rfl, rfl⟩
  | cons b rest ih =>
    intro c c' hnd hfresh h
    have hbnone : List.lookup b c.block_labels_ = none := hfresh b (by simp)
    have hbnotin : b ∉ rest := (List.nodup_cons.mp hnd).1
    have hab : c.add_block b = Except.ok
        { c with block_labels_ :=
            c.block_labels_ ++ [(b, c.block_labels_.length)] } := by
      simp [FunctionSerializationContext.add_block, labelEmplace, labelMapSize,
        hbnone]
    rw [add_blocks, hab] at h
    obtain ⟨p1, p2, p3, p4⟩ := ih _ c' (List.nodup_cons.mp hnd).2
      (by
        intro b' hb'
        have hne : b' ≠ b := by
          intro heq
          exact hbnotin (heq ▸ hb')
        simp only []
        rw [lookup_append_single_ne hne]
        exact hfresh b' (by simp [hb']))
      h
    refine ⟨?_, ?_, ?_, ?_⟩
    · intro i hi
      match i with
      | 0 =>
        have hb' : List.lookup b c'.block_labels_ =
            List.lookup b (c.block_labels_ ++ [(b, c.block_labels_.length)]) :=
          p2 b hbnotin
        rw [show ((b :: rest).get ⟨0, hi⟩) = b from rfl, hb',
          lookup_append_of_none hbnone]
        have hbeq : (b == b) = true := by simp
        simp [List.lookup, hbeq]
      | Nat.succ k =>
        have hk : k < rest.length := by simpa using hi
        have := p1 k hk
        have hlen : (c.block_labels_ ++
            [(b, c.block_labels_.length)]).length = c.block_labels_.length + 1 := by
          simp
        rw [hlen] at this
        have harith : c.block_labels_.length + 1 + k =
            c.block_labels_.length + (k + 1) := by omega
        rw [harith] at this
        simpa using this
    · intro b' hnotin
      have hb'rest : b' ∉ rest := fun hmem => hnotin (by simp [hmem])
      have hb'ne : b' ≠ b := fun heq => hnotin (by simp [heq])
      rw [p2 b' hb'rest]
      exact lookup_append_single_ne hb'ne
    · exact p3
    · exact p4

theorem add_instructions_sound :
    ∀ (bs : List Nat) (c c' : FunctionSerializationContext),
      bs.Nodup →
      (∀ b ∈ bs, List.lookup b c.inst_labels_ = none) →
      add_instructions c bs = Except.ok c' →
      (∀ (i : Nat) (hi : i < bs.length),
        List.lookup (bs.get ⟨i, hi⟩) c'.inst_labels_ =
          some (c.inst_labels_.length + i)) ∧
      (∀ b, b ∉ bs →
        List.lookup b c'.inst_labels_ = List.lookup b c.inst_labels_) ∧
      c'.block_labels_ = c.block_labels_ ∧ c'.arg_labels_ = c.arg_labels_ := by
  intro bs
  induction bs with
  | nil =>
    intro c c' _ _ h
    simp only [add_instructions] at h
    injection h with h1
    subst h1
    exact ⟨fun i hi => absurd hi (by simp), fun b _ => rfl, rfl, rfl⟩
  | cons b rest ih =>
    intro c c' hnd hfresh h
    have hbnone : List.lookup b c.inst_labels_ = none := hfresh b (by simp)
    have hbnotin : b ∉ rest := (List.nodup_cons.mp hnd).1
    have hab : c.add_instruction b = Except.ok
        { c with inst_labels_ :=
            c.inst_labels_ ++ [(b, c.inst_labels_.length)] } := by
      simp [FunctionSerializationContext.add_instruction, labelEmplace, labelMapSize,
        hbnone]
    rw [add_instructions, hab] at h
    obtain ⟨p1, p2, p3, p4⟩ := ih _ c' (List.nodup_cons.mp hnd).2
      (by
        intro b' hb'
        have hne : b' ≠ b := by
          intro heq
          exact hbnotin (heq ▸ hb')
        simp only []
        rw [lookup_append_single_ne hne]
        exact hfresh b' (by simp [hb']))
      h
    refine ⟨?_, ?_, ?_, ?_⟩
    · intro i hi
      match i with
      | 0 =>
        have hb' : List.lookup b c'.inst_labels_ =
            List.lookup b (c.inst_labels_ ++ [(b, c.inst_labels_.length)]) :=
          p2 b hbnotin
        rw [show ((b :: rest).get ⟨0, hi⟩) = b from rfl, hb',
          lookup_append_of_none hbnone]
        have hbeq : (b == b) = true := by simp
        simp [List.lookup, hbeq]
      | Nat.succ k =>
        have hk : k < rest.length := by simpa using hi
        have := p1 k hk
        have hlen : (c.inst_labels_ ++
            [(b, c.inst_labels_.length)]).length = c.inst_labels_.length + 1 := by
          simp
        rw [hlen] at this
        have harith : c.inst_labels_.length + 1 + k =
            c.inst_labels_.length + (k + 1) := by omega
        rw [harith] at this
        simpa using this
    · intro b' hnotin
      have hb'rest : b' ∉ rest := fun hmem => hnotin (by simp [hmem])
      have hb'ne : b' ≠ b := fun heq => hnotin (by simp [heq])
      rw [p2 b' hb'rest]
      exact lookup_append_single_ne hb'ne
    · exact p3
    · exact p4

theorem add_arguments_sound :
    ∀ (bs : List Nat) (c c' : FunctionSerializationContext),
      bs.Nodup →
      (∀ b ∈ bs, List.lookup b c.arg_labels_ = none) →
      add_arguments c bs = Except.ok c' →
      (∀ (i : Nat) (hi : i < bs.length),
        List.lookup (bs.get ⟨i, hi⟩) c'.arg_labels_ =
          some (c.arg_labels_.length + i)) ∧
      (∀ b, b ∉ bs →
        List.lookup b c'.arg_labels_ = List.lookup b c.arg_labels_) ∧
      c'.block_labels_ = c.block_labels_ ∧ c'.inst_labels_ = c.inst_labels_ := by
  intro bs
  induction bs with
  | nil =>
    intro c c' _ _ h
    simp only [add_arguments] at h
    injection h with h1
    subst h1
    exact ⟨fun i hi => absurd hi (by simp), fun b _ => rfl, rfl, rfl⟩
  | cons b rest ih =>
    intro c c' hnd hfresh h
    have hbnone : List.lookup b c.arg_labels_ = none := hfresh b (by simp)
    have hbnotin : b ∉ rest := (List.nodup_cons.mp hnd).1
    have hab : c.add_argument b = Except.ok
        { c with arg_labels_ :=
            c.arg_labels_ ++ [(b, c.arg_labels_.length)] } := by
      simp [FunctionSerializationContext.add_argument, labelEmplace, labelMapSize,
        hbnone]
    rw [add_arguments, hab] at h
    obtain ⟨p1, p2, p3, p4⟩ := ih _ c' (List.nodup_cons.mp hnd).2
      (by
        intro b' hb'
        have hne : b' ≠ b := by
          intro heq
          exact hbnotin (heq ▸ hb')
        simp only []
        rw [lookup_append_single_ne hne]
        exact hfresh b' (by simp [hb']))
      h
    refine ⟨?_, ?_, ?_, ?_⟩
    · intro i hi
      match i with
      | 0 =>
        have hb' : List.lookup b c'.arg_labels_ =
            List.lookup b (c.arg_labels_ ++ [(b, c.arg_labels_.length)]) :=
          p2 b hbnotin
        rw [show ((b :: rest).get ⟨0, hi⟩) = b from rfl, hb',
          lookup_append_of_none hbnone]
        have hbeq : (b == b) = true := by simp
        simp [List.lookup, hbeq]
      | Nat.succ k =>
        have hk : k < rest.length := by simpa using hi
        have := p1 k hk
        have hlen : (c.arg_labels_ ++
            [(b, c.arg_labels_.length)]).length = c.arg_labels_.length + 1 := by
          simp
        rw [hlen] at this
        have harith : c.arg_labels_.length + 1 + k =
            c.arg_labels_.length + (k + 1) := by omega
        rw [harith] at this
        simpa using this
    · intro b' hnotin
      have hb'rest : b' ∉ rest := fun hmem => hnotin (by simp [hmem])
      have hb'ne : b' ≠ b := fun heq => hnotin (by simp [heq])
      rw [p2 b' hb'rest]
      exact lookup_append_single_ne hb'ne
    · exact p3
    · exact p4

/-- C1: for every integer constant whose unsigned magnitude is at most
`UINT64_MAX`, `serialize_const` encodes it as `{"Int": {"value": v}}` with
`v` the exact unsigned value; when the bit width exceeds the configured
threshold (default 64) a recoverable error is logged, and the result is
still exactly `{"Int": {"value": v}}`, unchanged. -/
theorem serialize_const_int_in_range (w v : Nat) (hv : v ≤ UINT64_MAX) :
    serialize_const (ConstVal.constInt w v) =
      Except.ok (Json.obj [("Int", Json.obj [("value", Json.num v)])],
        if OPT_MAX_BITS_FOR_INT < w
          then ["constant integer width exceeds limit: " ++ toString w]
          else []) := by
  rw [serialize_const]
  unfold serialize_const_data_int
  have hnv : ¬ (v > UINT64_MAX) := not_lt.mpr hv
  by_cases hw : OPT_MAX_BITS_FOR_INT < w <;>
    simp [hw, hnv, serBind, serMap, serPure, serLog, getLimitedValue]

/-- C1 witness: width 100 (over the threshold), value 5: the recoverable
width error is logged and the result is exactly `{"Int": {"value": 5}}`. -/
theorem serialize_const_int_in_range_witness :
    (5 : Nat) ≤ UINT64_MAX ∧
    serialize_const (ConstVal.constInt 100 5) =
      Except.ok (Json.obj [("Int", Json.obj [("value", Json.num 5)])],
        ["constant integer width exceeds limit: 100"]) := by
  refine ⟨by norm_num [UINT64_MAX], ?_⟩
  have h := serialize_const_int_in_range 100 5 (by norm_num [UINT64_MAX])
  rw [h]
  rfl

/-- C2: for every integer constant whose unsigned magnitude exceeds
`UINT64_MAX`, serialization aborts fatally regardless of the bit width,
and no `Int` record is produced. -/
theorem serialize_const_int_overflow_fatal (w v : Nat) (hv : UINT64_MAX < v) :
    serialize_const (ConstVal.constInt w v) =
      Except.error ("constant integer value exceeds limit: " ++ toString v) := by
  rw [serialize_const]
  unfold serialize_const_data_int
  by_cases hw : OPT_MAX_BITS_FOR_INT < w <;>
    simp [hw, hv, serBind, serMap, serPure, serLog, serFatal]

/-- C2 witness: the 65-bit value `2^64` aborts serialization fatally. -/
theorem serialize_const_int_overflow_fatal_witness :
    UINT64_MAX < 2 ^ 64 ∧
    serialize_const (ConstVal.constInt 65 (2 ^ 64)) =
      Except.error
        "constant integer value exceeds limit: 18446744073709551616" := by
  refine ⟨by norm_num [UINT64_MAX], ?_⟩
  have h := serialize_const_int_overflow_fatal 65 (2 ^ 64)
    (by norm_num [UINT64_MAX])
  rw [h]
  rfl

/-- C3: for every aggregate constant (array, struct, vector) and every
dense data sequence, the encoded payload is `{"elements": [...]}` where
each element is encoded by the top-level classifier (`serialize_constant`)
and the output order equals the stored element/operand order exactly. -/
theorem serialize_aggregate_order_preserving (ops : List Constant)
    (es : List Json) (l : List String)
    (h : serialize_const_list ops = Except.ok (es, l)) :
    serialize_const (ConstVal.constArray ops) =
      Except.ok (Json.obj [("Array", Json.obj [("elements", Json.arr es)])], l) ∧
    serialize_const (ConstVal.constStruct ops) =
      Except.ok (Json.obj [("Struct", Json.obj [("elements", Json.arr es)])], l) ∧
    serialize_const (ConstVal.constVector ops) =
      Except.ok (Json.obj [("Vector", Json.obj [("elements", Json.arr es)])], l) ∧
    serialize_const (ConstVal.constDataArray ops) =
      Except.ok (Json.obj [("Array", Json.obj [("elements", Json.arr es)])], l) ∧
    serialize_const (ConstVal.constDataVector ops) =
      Except.ok (Json.obj [("Vector", Json.obj [("elements", Json.arr es)])], l) ∧
    es.length = ops.length ∧
    ∀ (i : Nat) (hi : i < ops.length) (hj : i < es.length),
      ∃ li, serialize_constant (ops.get ⟨i, hi⟩) =
        Except.ok (es.get ⟨i, hj⟩, li) := by
  obtain ⟨hlen, hpt⟩ := serialize_const_list_sound ops es l h
  refine ⟨?_, ?_, ?_, ?_, ?_, hlen, hpt⟩ <;>
    simp only [serialize_const, serialize_const_pack_array,
      serialize_const_pack_struct, serialize_const_pack_vector,
      serialize_const_data_array, serialize_const_data_vector,
      serialize_const_pack_aggregate, serialize_const_data_sequence, h,
      serMap_ok]

/-- A 32-bit integer constant, used as a concrete sample element. -/
def sampleInt (n : Nat) : Constant :=
  Constant.mk (Ty.named "i32") (ConstVal.constInt 32 n)

/-- The serialized record of `sampleInt n`. -/
def sampleIntRecord (n : Nat) : Json :=
  Json.obj [("ty", Json.obj [("type", Json.str "i32")]),
    ("repr", Json.obj [("Int", Json.obj [("value", Json.num n)])])]

/-- C3 witness: the two-element list `[1, 2]` in every aggregate form:
elements come out in stored order. -/
theorem serialize_aggregate_order_preserving_witness :
    serialize_const (ConstVal.constArray [sampleInt 1, sampleInt 2]) =
      Except.ok (Json.obj [("Array", Json.obj [("elements",
        Json.arr [sampleIntRecord 1, sampleIntRecord 2])])], []) ∧
    serialize_const (ConstVal.constStruct [sampleInt 1, sampleInt 2]) =
      Except.ok (Json.obj [("Struct", Json.obj [("elements",
        Json.arr [sampleIntRecord 1, sampleIntRecord 2])])], []) ∧
    serialize_const (ConstVal.constVector [sampleInt 1, sampleInt 2]) =
      Except.ok (Json.obj [("Vector", Json.obj [("elements",
        Json.arr [sampleIntRecord 1, sampleIntRecord 2])])], []) ∧
    serialize_const (ConstVal.constDataArray [sampleInt 1, sampleInt 2]) =
      Except.ok (Json.obj [("Array", Json.obj [("elements",
        Json.arr [sampleIntRecord 1, sampleIntRecord 2])])], []) ∧
    serialize_const (ConstVal.constDataVector [sampleInt 1, sampleInt 2]) =
      Except.ok (Json.obj [("Vector", Json.obj [("elements",
        Json.arr [sampleIntRecord 1, sampleIntRecord 2])])], []) ∧
    ([sampleIntRecord 1, sampleIntRecord 2] : List Json).length =
      ([sampleInt 1, sampleInt 2] : List Constant).length ∧
    ∀ (i : Nat) (hi : i < ([sampleInt 1, sampleInt 2] : List Constant).length)
      (hj : i < ([sampleIntRecord 1, sampleIntRecord 2] : List Json).length),
      ∃ li, serialize_constant (([sampleInt 1, sampleInt 2] :
          List Constant).get ⟨i, hi⟩) =
        Except.ok (([sampleIntRecord 1, sampleIntRecord 2] :
          List Json).get ⟨i, hj⟩, li) := by
  have hlist : serialize_const_list [sampleInt 1, sampleInt 2] =
      Except.ok ([sampleIntRecord 1, sampleIntRecord 2], []) := by
    simp [serialize_const_list, serialize_constant, serialize_const,
      serialize_const_data_int, serialize_type, sampleInt, sampleIntRecord,
      serBind, serMap, serPure, serLog, OPT_MAX_BITS_FOR_INT, UINT64_MAX,
      getLimitedValue]
  exact serialize_aggregate_order_preserving _ _ _ hlist

/-- C4 counterexample: the module is not read-only: preparing the
synthetic scope on the empty module changes the module's function list
(the synthetic function is created with the module as parent). -/
theorem prepare_for_serialization_mutates_module :
    ¬ ((prepare_for_serialization { name := "m", functions := [] }).1.functions
      = ({ name := "m", functions := [] } : IRModule).functions) := by
  simp [prepare_for_serialization]

/-- C4 amended: `prepare_for_serialization` mutates the module in exactly
one way: it appends the single synthetic (unnamed, internal) function that
hosts the throwaway block and instruction to the module's function list,
preserving the module's name and every pre-existing function; the constant
encoders themselves take no module at all. -/
theorem prepare_for_serialization_appends_dummy (m : IRModule) :
    (prepare_for_serialization m).1.name = m.name ∧
    (prepare_for_serialization m).1.functions =
      m.functions ++ [the_dummy_function] ∧
    (prepare_for_serialization m).2.dummy_function = the_dummy_function := by
  simp [prepare_for_serialization]

/-- C5: every constant expression is encoded as
`{"Expr": {"inst": I}}` where `I` is the instruction encoder's output on
the materialized instruction under a fresh, throwaway context, and that
output is identical to what the instruction encoder produces for a real
instruction of the same shape over the same operands under any context. -/
theorem serialize_const_expr_materialization (opcode : String)
    (ops : List Constant) (ctxt : FunctionSerializationContext) :
    serialize_const (ConstVal.constExpr opcode ops) =
      serMap (fun encoded => Json.obj [("Expr", Json.obj [("inst", encoded)])])
        (serialize_inst FunctionSerializationContext.empty
          (getAsInstruction opcode ops)) ∧
    serialize_inst ctxt (getAsInstruction opcode ops) =
      serialize_inst FunctionSerializationContext.empty
        (getAsInstruction opcode ops) :=
  ⟨serialize_const_constExpr_eq opcode ops,
   serialize_inst_ctxt_irrelevant ctxt FunctionSerializationContext.empty
     opcode ops⟩

/-- C6: starting from a fresh context, the `add_*` operations assign
dense zero-based labels per map in first-add order, the corresponding
`get_*` returns exactly the assigned label, and `get_*` on an identity
never added to that map is a fatal lookup error. -/
theorem context_dense_labels (bs is as_ : List Nat)
    (cb ci ca : FunctionSerializationContext)
    (hbs : bs.Nodup) (his : is.Nodup) (has_ : as_.Nodup)
    (hb : add_blocks FunctionSerializationContext.empty bs = Except.ok cb)
    (hi : add_instructions FunctionSerializationContext.empty is = Except.ok ci)
    (ha : add_arguments FunctionSerializationContext.empty as_ = Except.ok ca) :
    (∀ (i : Nat) (h : i < bs.length),
      cb.get_block (bs.get ⟨i, h⟩) = Except.ok i) ∧
    (∀ b, b ∉ bs →
      cb.get_block b = Except.error "fatal lookup error: unregistered block") ∧
    (∀ (i : Nat) (h : i < is.length),
      ci.get_instruction (is.get ⟨i, h⟩) = Except.ok i) ∧
    (∀ j, j ∉ is → ci.get_instruction j =
      Except.error "fatal lookup error: unregistered instruction") ∧
    (∀ (i : Nat) (h : i < as_.length),
      ca.get_argument (as_.get ⟨i, h⟩) = Except.ok i) ∧
    (∀ a, a ∉ as_ → ca.get_argument a =
      Except.error "fatal lookup error: unregistered argument") := by
  obtain ⟨p1, p2, _, _⟩ := add_blocks_sound bs
    FunctionSerializationContext.empty cb hbs (fun b _ => rfl) hb
  obtain ⟨q1, q2, _, _⟩ := add_instructions_sound is
    FunctionSerializationContext.empty ci his (fun b _ => rfl) hi
  obtain ⟨r1, r2, _, _⟩ := add_arguments_sound as_
    FunctionSerializationContext.empty ca has_ (fun b _ => rfl) ha
  refine ⟨?_, ?_, ?_, ?_, ?_, ?_⟩
  · intro i h
    have h2 := p1 i h
    simp only [FunctionSerializationContext.empty, List.length_nil,
      Nat.zero_add] at h2
    simp only [List.get_eq_getElem] at h2
    simp [FunctionSerializationContext.get_block, labelAt, h2]
  · intro b hnotin
    have h2 := p2 b hnotin
    simp only [FunctionSerializationContext.empty] at h2
    simp only [List.lookup] at h2
    simp [FunctionSerializationContext.get_block, labelAt, h2]
  · intro i h
    have h2 := q1 i h
    simp only [FunctionSerializationContext.empty, List.length_nil,
      Nat.zero_add] at h2
    simp only [List.get_eq_getElem] at h2
    simp [FunctionSerializationContext.get_instruction, labelAt, h2]
  · intro j hnotin
    have h2 := q2 j hnotin
    simp only [FunctionSerializationContext.empty] at h2
    simp only [List.lookup] at h2
    simp [FunctionSerializationContext.get_instruction, labelAt, h2]
  · intro i h
    have h2 := r1 i h
    simp only [FunctionSerializationContext.empty, List.length_nil,
      Nat.zero_add] at h2
    simp only [List.get_eq_getElem] at h2
    simp [FunctionSerializationContext.get_argument, labelAt, h2]
  · intro a hnotin
    have h2 := r2 a hnotin
    simp only [FunctionSerializationContext.empty] at h2
    simp only [List.lookup] at h2
    simp [FunctionSerializationContext.get_argument, labelAt, h2]

/-- C6 witness: blocks `[5, 7]`, instruction `[3]`, argument `[9]`: labels
come out 0, 1 in first-add order and unseen identities are fatal. -/
theorem context_dense_labels_witness :
    (∀ (i : Nat) (h : i < ([5, 7] : List Nat).length),
      FunctionSerializationContext.get_block
        { block_labels_ := [(5, 0), (7, 1)], inst_labels_ := [],
          arg_labels_ := [] } (([5, 7] : List Nat).get ⟨i, h⟩) =
        Except.ok i) ∧
    (∀ b, b ∉ ([5, 7] : List Nat) →
      FunctionSerializationContext.get_block
        { block_labels_ := [(5, 0), (7, 1)], inst_labels_ := [],
          arg_labels_ := [] } b =
        Except.error "fatal lookup error: unregistered block") ∧
    (∀ (i : Nat) (h : i < ([3] : List Nat).length),
      FunctionSerializationContext.get_instruction
        { block_labels_ := [], inst_labels_ := [(3, 0)],
          arg_labels_ := [] } (([3] : List Nat).get ⟨i, h⟩) =
        Except.ok i) ∧
    (∀ j, j ∉ ([3] : List Nat) →
      FunctionSerializationContext.get_instruction
        { block_labels_ := [], inst_labels_ := [(3, 0)],
          arg_labels_ := [] } j =
        Except.error "fatal lookup error: unregistered instruction") ∧
    (∀ (i : Nat) (h : i < ([9] : List Nat).length),
      FunctionSerializationContext.get_argument
        { block_labels_ := [], inst_labels_ := [],
          arg_labels_ := [(9, 0)] } (([9] : List Nat).get ⟨i, h⟩) =
        Except.ok i) ∧
    (∀ a, a ∉ ([9] : List Nat) →
      FunctionSerializationContext.get_argument
        { block_labels_ := [], inst_labels_ := [],
          arg_labels_ := [(9, 0)] } a =
        Except.error "fatal lookup error: unregistered argument") :=
  context_dense_labels [5, 7] [3] [9] _ _ _
    (by decide) (by decide) (by decide) rfl rfl rfl

/-- C7: calling an `add_*` operation a second time for an identity already
registered in that map fails loudly with the assertion violation, and a
successful `add_*` can only have happened for an identity not yet in the
map (so no label is ever silently overwritten or reassigned). -/
theorem context_duplicate_add_fails (c : FunctionSerializationContext)
    (b i a : Nat) :
    ((List.lookup b c.block_labels_).isSome →
      c.add_block b =
        Except.error "assertion failed: duplicate block identity") ∧
    (∀ c2, c.add_block b = Except.ok c2 →
      List.lookup b c.block_labels_ = none) ∧
    ((List.lookup i c.inst_labels_).isSome →
      c.add_instruction i =
        Except.error "assertion failed: duplicate instruction identity") ∧
    (∀ c2, c.add_instruction i = Except.ok c2 →
      List.lookup i c.inst_labels_ = none) ∧
    ((List.lookup a c.arg_labels_).isSome →
      c.add_argument a =
        Except.error "assertion failed: duplicate argument identity") ∧
    (∀ c2, c.add_argument a = Except.ok c2 →
      List.lookup a c.arg_labels_ = none) := by
  refine ⟨?_, ?_, ?_, ?_, ?_, ?_⟩
  · intro h
    cases hl : List.lookup b c.block_labels_ with
    | none => rw [hl] at h; exact absurd h (by simp)
    | some v => simp [FunctionSerializationContext.add_block, labelEmplace, hl]
  · intro c2 h
    cases hl : List.lookup b c.block_labels_ with
    | none => rfl
    | some v =>
      simp [FunctionSerializationContext.add_block, labelEmplace, hl] at h
  · intro h
    cases hl : List.lookup i c.inst_labels_ with
    | none => rw [hl] at h; exact absurd h (by simp)
    | some v =>
      simp [FunctionSerializationContext.add_instruction, labelEmplace, hl]
  · intro c2 h
    cases hl : List.lookup i c.inst_labels_ with
    | none => rfl
    | some v =>
      simp [FunctionSerializationContext.add_instruction, labelEmplace, hl] at h
  · intro h
    cases hl : List.lookup a c.arg_labels_ with
    | none => rw [hl] at h; exact absurd h (by simp)
    | some v =>
      simp [FunctionSerializationContext.add_argument, labelEmplace, hl]
  · intro c2 h
    cases hl : List.lookup a c.arg_labels_ with
    | none => rfl
    | some v =>
      simp [FunctionSerializationContext.add_argument, labelEmplace, hl] at h

/-- C7 witness: re-adding the registered identities 1 / 2 / 3 fails with
the assertion violation on each of the three maps. -/
theorem context_duplicate_add_fails_witness :
    FunctionSerializationContext.add_block
      { block_labels_ := [(1, 0)], inst_labels_ := [(2, 0)],
        arg_labels_ := [(3, 0)] } 1 =
      Except.error "assertion failed: duplicate block identity" ∧
    FunctionSerializationContext.add_instruction
      { block_labels_ := [(1, 0)], inst_labels_ := [(2, 0)],
        arg_labels_ := [(3, 0)] } 2 =
      Except.error "assertion failed: duplicate instruction identity" ∧
    FunctionSerializationContext.add_argument
      { block_labels_ := [(1, 0)], inst_labels_ := [(2, 0)],
        arg_labels_ := [(3, 0)] } 3 =
      Except.error "assertion failed: duplicate argument identity" :=
  ⟨(context_duplicate_add_fails _ 1 2 3).1 (by decide),
   (context_duplicate_add_fails _ 1 2 3).2.2.1 (by decide),
   (context_duplicate_add_fails _ 1 2 3).2.2.2.2.1 (by decide)⟩

/-- C8: a global-value constant (variable, function, alias, indirect
function) is encoded as exactly `{"name": n}` when named and `{}` when
anonymous, and the encoding never recurses into the referenced entity's
definition (it is independent of the initializer / aliasee). -/
theorem serialize_global_reference (name : Option String) (n : String)
    (initializer aliasee : Option Constant) :
    serialize_const (ConstVal.globalVariable name initializer) =
      Except.ok (Json.obj [("Variable", serialize_const_ref_global name)], []) ∧
    serialize_const (ConstVal.globalFunction name) =
      Except.ok (Json.obj [("Function", serialize_const_ref_global name)], []) ∧
    serialize_const (ConstVal.globalAlias name aliasee) =
      Except.ok (Json.obj [("Alias", serialize_const_ref_global name)], []) ∧
    serialize_const (ConstVal.globalIFunc name) =
      Except.ok (Json.obj [("Interface", serialize_const_ref_global name)], []) ∧
    serialize_const_ref_global (some n) = Json.obj [("name", Json.str n)] ∧
    serialize_const_ref_global none = Json.obj [] ∧
    serialize_const (ConstVal.globalVariable name initializer) =
      serialize_const (ConstVal.globalVariable name none) ∧
    serialize_const (ConstVal.globalAlias name aliasee) =
      serialize_const (ConstVal.globalAlias name none) := by
  refine ⟨?_, ?_, ?_, ?_, rfl, rfl, ?_, ?_⟩ <;>
    simp [serialize_const, serialize_const_ref_global_variable,
      serialize_const_ref_function, serialize_const_ref_global_alias,
      serialize_const_ref_interface, serPure]

/-- C9: serialization is deterministic: encoding the same constant twice
in the same session yields identical output both times. -/
theorem serialize_constant_deterministic (c : Constant) (j1 j2 : Json)
    (l : List String)
    (h : serialize_constant_twice c = Except.ok ((j1, j2), l)) : j1 = j2 := by
  unfold serialize_constant_twice at h
  cases hc : serialize_constant c with
  | error e =>
    rw [hc] at h
    exact absurd h (by simp [serBind])
  | ok al =>
    obtain ⟨j, l1⟩ := al
    rw [hc] at h
    simp only [serBind, serMap, serPure] at h
    injection h with hpair
    injection hpair with hp hl
    injection hp with h1 h2
    rw [← h1, ← h2]

/-- C9 witness: encoding the integer constant 7 twice yields the same
record both times. -/
theorem serialize_constant_deterministic_witness :
    sampleIntRecord 7 = sampleIntRecord 7 := by
  have hx : serialize_constant_twice (sampleInt 7) =
      Except.ok ((sampleIntRecord 7, sampleIntRecord 7), []) := by
    simp [serialize_constant_twice, serialize_constant, serialize_const,
      serialize_const_data_int, serialize_type, sampleInt, sampleIntRecord,
      serBind, serMap, serPure, serLog, OPT_MAX_BITS_FOR_INT, UINT64_MAX,
      getLimitedValue]
  exact serialize_constant_deterministic (sampleInt 7) _ _ _ hx

/-- C10: `serialize_const_expr` hands the instruction encoder a context
whose three label maps are all empty, every `get_*` on that context is a
fatal lookup error, and encoding any instruction that contains a block /
instruction / argument reference operand under it aborts. -/
theorem serialize_const_expr_fresh_context (opcode : String)
    (ops : List Constant) (b i a : Nat) (opc : String) (vs : List Value) :
    serialize_const (ConstVal.constExpr opcode ops) =
      serMap (fun encoded => Json.obj [("Expr", Json.obj [("inst", encoded)])])
        (serialize_inst FunctionSerializationContext.empty
          (getAsInstruction opcode ops)) ∧
    FunctionSerializationContext.empty.block_labels_ = [] ∧
    FunctionSerializationContext.empty.inst_labels_ = [] ∧
    FunctionSerializationContext.empty.arg_labels_ = [] ∧
    FunctionSerializationContext.empty.get_block b =
      Except.error "fatal lookup error: unregistered block" ∧
    FunctionSerializationContext.empty.get_instruction i =
      Except.error "fatal lookup error: unregistered instruction" ∧
    FunctionSerializationContext.empty.get_argument a =
      Except.error "fatal lookup error: unregistered argument" ∧
    ((∃ v ∈ vs, Value.isRef v = true) →
      ∃ e, serialize_inst FunctionSerializationContext.empty
        { opcode := opc, operands := vs } = Except.error e) :=
  ⟨serialize_const_constExpr_eq opcode ops, rfl, rfl, rfl, rfl, rfl, rfl,
   serialize_inst_ref_fatal opc vs⟩

/-- C10 witness: a branch-shaped instruction with a block-reference
operand, encoded under the fresh context, takes the fatal lookup path. -/
theorem serialize_const_expr_fresh_context_witness :
    serialize_const (ConstVal.constExpr "getelementptr" []) =
      serMap (fun encoded => Json.obj [("Expr", Json.obj [("inst", encoded)])])
        (serialize_inst FunctionSerializationContext.empty
          (getAsInstruction "getelementptr" [])) ∧
    FunctionSerializationContext.empty.block_labels_ = [] ∧
    FunctionSerializationContext.empty.inst_labels_ = [] ∧
    FunctionSerializationContext.empty.arg_labels_ = [] ∧
    FunctionSerializationContext.empty.get_block 0 =
      Except.error "fatal lookup error: unregistered block" ∧
    FunctionSerializationContext.empty.get_instruction 0 =
      Except.error "fatal lookup error: unregistered instruction" ∧
    FunctionSerializationContext.empty.get_argument 0 =
      Except.error "fatal lookup error: unregistered argument" ∧
    (∃ e, serialize_inst FunctionSerializationContext.empty
      { opcode := "br", operands := [Value.blockRef 4] } = Except.error e) := by
  have h := serialize_const_expr_fresh_context "getelementptr" [] 0 0 0 "br"
    [Value.blockRef 4]
  exact ⟨h.1, h.2.1, h.2.2.1, h.2.2.2.1, h.2.2.2.2.1, h.2.2.2.2.2.1,
    h.2.2.2.2.2.2.1,
    h.2.2.2.2.2.2.2 ⟨Value.blockRef 4, by simp, rfl⟩⟩

end libra
